import Mathlib

/-
Verification of the react-tates hook factories (src/hooks.ts).

The source builds React hooks around an observable store ("tate"):
  - createStateHook (action-bound variant): per render, normalizes the
    captured initialValue cell (undefined -> null), seeds a useState cell
    with it, and registers an effect keyed on [invokeAction, ...actionArgs]
    that optionally invokes the configured action and then subscribes to the
    configured property; the subscription callback maps undefined to null
    and stores every other delivered value verbatim; the hook returns the
    fallback (initialValueCopy) whenever the cell is nil and the fallback is
    not nil, else the cell.
  - createKeyedStateHook: same, but the effect is keyed on
    [key, invokeAction, ...actionArgs], normalizes the fallback cell inside
    the effect, does nothing while key is nil, and subscribes to
    property + "." + key.
  - the older plain curried variant and createWrappedStateHook share the
    same subscription callback and read shape.

JavaScript values are embedded as JVal (undefined | null | concrete), the
store and React runtime as an explicit step machine over per-instance state,
with a trace of action-invocation / subscribe / unsubscribe events.
-/

namespace ReactTates

/-- A JavaScript value of underlying payload type α: undefined, null, or a
concrete value. -/
inductive JVal (α : Type) where
  | undef : JVal α
  | jnull : JVal α
  | val : α → JVal α
  deriving DecidableEq, Repr

namespace JVal

/-- lodash isUndefined. -/
def isUndefined {α : Type} : JVal α → Bool
  | .undef => true
  | _ => false

/-- lodash isNil: true for undefined and null. -/
def isNil {α : Type} : JVal α → Bool
  | .undef => true
  | .jnull => true
  | .val _ => false

end JVal

/-- The subscription callback of the action-bound createStateHook
(src/hooks.ts): the value handed to setState for a delivered value.
Source: `if (isUndefined(value)) { setState(null); return; } setState(value);` -/
def stateHookCallback {α : Type} (value : JVal α) : JVal α :=
  if value.isUndefined then JVal.jnull else value

/-- The subscription callback of createKeyedStateHook (same body in source). -/
def keyedStateHookCallback {α : Type} (value : JVal α) : JVal α :=
  if value.isUndefined then JVal.jnull else value

/-- The subscription callback of createWrappedStateHook (same body in source). -/
def wrappedStateHookCallback {α : Type} (value : JVal α) : JVal α :=
  if value.isUndefined then JVal.jnull else value

/-- The subscription callback of the older plain curried createStateHook
(same body in source). -/
def plainStateHookCallback {α : Type} (value : JVal α) : JVal α :=
  if value.isUndefined then JVal.jnull else value

/-- The hook's return expression, shared by the variants with a fallback:
`if (isNil(state) && !isNil(initialValueCopy)) return initialValueCopy;
 return state;` -/
def hookReturn {α : Type} (state ivc : JVal α) : JVal α :=
  if state.isNil && !ivc.isNil then ivc else state

/-- The `if (isUndefined(initialValueCopy)) initialValueCopy = null;`
normalization applied to the fallback cell. -/
def normIvc {α : Type} (ivc : JVal α) : JVal α :=
  if ivc.isUndefined then JVal.jnull else ivc

/-- The action supplied to a factory: absent (undefined), present but not
callable, or a callable. A callable is modelled by the list of observable
store effects it produces from its argument list (arguments are opaque,
identity-compared values, modelled as Nat). -/
inductive SuppliedAction (ε : Type) where
  | absent : SuppliedAction ε
  | notCallable : SuppliedAction ε
  | callable : (List Nat → List ε) → SuppliedAction ε

/-- lodash noop: a callable with no observable effect. -/
def noop {ε : Type} : List Nat → List ε := fun _ => []

/-- `const actionFn = isFunction(action) ? action : noop;` -/
def actionFn {ε : Type} : SuppliedAction ε → (List Nat → List ε)
  | .callable f => f
  | .absent => noop
  | .notCallable => noop

/-- The factory configuration: `{ tate, property, action?, initialValue? }`.
The store itself is external; only the property path, the supplied action and
the initial value influence the behavior modelled here. An absent
initialValue is JVal.undef. -/
structure StateHookOptions (α ε : Type) where
  property : String
  action : SuppliedAction ε
  initialValue : JVal α

/-- `const actionArr = isArray(actionArgs) ? actionArgs : [];` -/
def actionArr (actionArgs : Option (List Nat)) : List Nat :=
  match actionArgs with
  | some l => l
  | none => []

/-- An observable event of a hook lifecycle: the action function being
invoked (with its arguments and the store effects it produces), a store
subscribe call (path and fresh handle id), or a release of a subscription
handle (its path and id). -/
inductive TEvent (ε : Type) where
  | actionCall : List Nat → List ε → TEvent ε
  | subscribeCall : String → Nat → TEvent ε
  | unsubCall : String → Nat → TEvent ε
  deriving DecidableEq, Repr

/-- Handle ids of subscribe calls in a trace, in order. -/
def subIds {ε : Type} (tr : List (TEvent ε)) : List Nat :=
  tr.filterMap fun e =>
    match e with
    | .subscribeCall _ id => some id
    | _ => none

/-- Handle ids of unsubscribe calls in a trace, in order. -/
def unsubIds {ε : Type} (tr : List (TEvent ε)) : List Nat :=
  tr.filterMap fun e =>
    match e with
    | .unsubCall _ id => some id
    | _ => none

/-- Paths of subscribe calls in a trace, in order. -/
def subPaths {ε : Type} (tr : List (TEvent ε)) : List String :=
  tr.filterMap fun e =>
    match e with
    | .subscribeCall p _ => some p
    | _ => none

/-- The action invocations recorded in a trace: argument list and produced
store effects, in order. -/
def actionCalls {ε : Type} (tr : List (TEvent ε)) : List (List Nat × List ε) :=
  tr.filterMap fun e =>
    match e with
    | .actionCall args out => some (args, out)
    | _ => none

/-- Order skeleton of action and subscribe events in a trace: false for an
action invocation, true for a subscribe call; unsubscribe events dropped. -/
def actSubTags {ε : Type} (tr : List (TEvent ε)) : List Bool :=
  tr.filterMap fun e =>
    match e with
    | .actionCall _ _ => some false
    | .subscribeCall _ _ => some true
    | .unsubCall _ _ => none

/-! ### The action-bound hook (createStateHook), per component instance -/

/-- Per-component-instance state of the action-bound hook: the factory's
initialValueCopy cell (shared with the factory closure), the useState cell
(none before the first render), the live subscription handle id (none when no
subscription is live), the dependency list of the last effect run, and the
next fresh handle id. -/
structure PInst (α : Type) where
  ivc : JVal α
  cell : Option (JVal α)
  sub : Option Nat
  prevDeps : Option (Bool × List Nat)
  nextId : Nat
  deriving DecidableEq, Repr

/-- Instance state at factory construction / before the first render. -/
def PInst.start {α ε : Type} (cfg : StateHookOptions α ε) : PInst α :=
  { ivc := cfg.initialValue
    cell := none
    sub := none
    prevDeps := none
    nextId := 0 }

/-- One render of the action-bound hook with the given options, followed by
the React effect phase: normalize the fallback cell, seed the useState cell
on the first render, and, when the dependency list [invokeAction,
...actionArr] differs from the previous run, release the previous
subscription, invoke the action when invokeAction is true, and subscribe to
the configured property. Returns the new instance state and the emitted
events. -/
def prender {α ε : Type} (cfg : StateHookOptions α ε) (s : PInst α)
    (invokeAction : Bool) (actionArgs : Option (List Nat)) :
    PInst α × List (TEvent ε) :=
  let arr := actionArr actionArgs
  let ivc := normIvc s.ivc
  let cell := s.cell.getD ivc
  let deps : Bool × List Nat := (invokeAction, arr)
  if s.prevDeps = some deps then
    ({ s with ivc := ivc, cell := some cell }, [])
  else
    let cleanup : List (TEvent ε) :=
      match s.sub with
      | some id => [TEvent.unsubCall cfg.property id]
      | none => []
    let acts : List (TEvent ε) :=
      if invokeAction then
        [TEvent.actionCall arr (actionFn cfg.action arr)]
      else []
    ({ ivc := ivc
       cell := some cell
       sub := some s.nextId
       prevDeps := some deps
       nextId := s.nextId + 1 },
     cleanup ++ acts ++ [TEvent.subscribeCall cfg.property s.nextId])

/-- Delivery of a store notification to the instance: when a subscription is
live, its callback runs and stores the normalized value; otherwise nothing
happens. -/
def pnotify {α : Type} (s : PInst α) (v : JVal α) : PInst α :=
  match s.sub with
  | some _ => { s with cell := some (stateHookCallback v) }
  | none => s

/-- Unmount: React runs the pending cleanup, releasing the live handle. -/
def punmount {α ε : Type} (cfg : StateHookOptions α ε) (s : PInst α) :
    PInst α × List (TEvent ε) :=
  match s.sub with
  | some id => ({ s with sub := none }, [TEvent.unsubCall cfg.property id])
  | none => (s, [])

/-- The value the hook returns for the current instance state (the render
body: normalize, read the cell, apply the fallback substitution). -/
def pread {α : Type} (s : PInst α) : JVal α :=
  hookReturn (s.cell.getD (normIvc s.ivc)) (normIvc s.ivc)

/-- External events driving one instance of the action-bound hook. -/
inductive PEvent (α : Type) where
  | render : Bool → Option (List Nat) → PEvent α
  | notify : JVal α → PEvent α
  | unmount : PEvent α
  deriving DecidableEq, Repr

/-- One step of the action-bound instance. -/
def pstep {α ε : Type} (cfg : StateHookOptions α ε) (s : PInst α) :
    PEvent α → PInst α × List (TEvent ε)
  | .render i a => prender cfg s i a
  | .notify v => (pnotify s v, [])
  | .unmount => punmount cfg s

/-- Run a list of events from a given instance state, collecting the trace. -/
def prunFrom {α ε : Type} (cfg : StateHookOptions α ε) :
    PInst α → List (PEvent α) → PInst α × List (TEvent ε)
  | s, [] => (s, [])
  | s, e :: es =>
    let p := pstep cfg s e
    let q := prunFrom cfg p.1 es
    (q.1, p.2 ++ q.2)

/-- Run a list of events from the start state. -/
def prun {α ε : Type} (cfg : StateHookOptions α ε) (es : List (PEvent α)) :
    PInst α × List (TEvent ε) :=
  prunFrom cfg (PInst.start cfg) es

/-! ### The keyed hook (createKeyedStateHook), per component instance -/

/-- Per-component-instance state of the keyed hook. The live subscription
carries its path so its release can be observed against the path it was
acquired for. -/
structure KInst (α : Type) where
  ivc : JVal α
  cell : Option (JVal α)
  sub : Option (String × Nat)
  prevDeps : Option (Option String × Bool × List Nat)
  nextId : Nat
  deriving DecidableEq, Repr

/-- Instance state at factory construction / before the first render. -/
def KInst.start {α ε : Type} (cfg : StateHookOptions α ε) : KInst α :=
  { ivc := cfg.initialValue
    cell := none
    sub := none
    prevDeps := none
    nextId := 0 }

/-- One render of the keyed hook followed by the effect phase. The useState
cell is seeded with null. When the dependency list [key, invokeAction,
...actionArr] differs from the previous run, the previous subscription is
released, then the effect body runs: it normalizes the fallback cell, and if
key is nil it does nothing further (noop cleanup); otherwise it invokes the
action when invokeAction is true and subscribes to property + "." + key. -/
def krender {α ε : Type} (cfg : StateHookOptions α ε) (s : KInst α)
    (key : Option String) (invokeAction : Bool)
    (actionArgs : Option (List Nat)) : KInst α × List (TEvent ε) :=
  let arr := actionArr actionArgs
  let cell := s.cell.getD JVal.jnull
  let deps : Option String × Bool × List Nat := (key, invokeAction, arr)
  if s.prevDeps = some deps then
    ({ s with cell := some cell }, [])
  else
    let cleanup : List (TEvent ε) :=
      match s.sub with
      | some pid => [TEvent.unsubCall pid.1 pid.2]
      | none => []
    let ivc := normIvc s.ivc
    match key with
    | none =>
      ({ s with
          ivc := ivc
          cell := some cell
          sub := none
          prevDeps := some deps }, cleanup)
    | some k =>
      let path := cfg.property ++ "." ++ k
      let acts : List (TEvent ε) :=
        if invokeAction then
          [TEvent.actionCall arr (actionFn cfg.action arr)]
        else []
      ({ ivc := ivc
         cell := some cell
         sub := some (path, s.nextId)
         prevDeps := some deps
         nextId := s.nextId + 1 },
       cleanup ++ acts ++ [TEvent.subscribeCall path s.nextId])

/-- Delivery of a store notification to the keyed instance. -/
def knotify {α : Type} (s : KInst α) (v : JVal α) : KInst α :=
  match s.sub with
  | some _ => { s with cell := some (keyedStateHookCallback v) }
  | none => s

/-- Unmount of the keyed instance. -/
def kunmount {α ε : Type} (s : KInst α) : KInst α × List (TEvent ε) :=
  match s.sub with
  | some pid => ({ s with sub := none }, [TEvent.unsubCall pid.1 pid.2])
  | none => (s, [])

/-- The value the keyed hook returns for the current instance state (the
fallback cell is read as it currently stands; it is normalized only inside
the effect). -/
def kread {α : Type} (s : KInst α) : JVal α :=
  hookReturn (s.cell.getD JVal.jnull) s.ivc

/-- External events driving one instance of the keyed hook. -/
inductive KEvent (α : Type) where
  | render : Option String → Bool → Option (List Nat) → KEvent α
  | notify : JVal α → KEvent α
  | unmount : KEvent α
  deriving DecidableEq, Repr

/-- One step of the keyed instance. -/
def kstep {α ε : Type} (cfg : StateHookOptions α ε) (s : KInst α) :
    KEvent α → KInst α × List (TEvent ε)
  | .render k i a => krender cfg s k i a
  | .notify v => (knotify s v, [])
  | .unmount => kunmount s

/-- Run a list of events from a given keyed instance state. -/
def krunFrom {α ε : Type} (cfg : StateHookOptions α ε) :
    KInst α → List (KEvent α) → KInst α × List (TEvent ε)
  | s, [] => (s, [])
  | s, e :: es =>
    let p := kstep cfg s e
    let q := krunFrom cfg p.1 es
    (q.1, p.2 ++ q.2)

/-- Run a list of events from the start state of the keyed instance. -/
def krun {α ε : Type} (cfg : StateHookOptions α ε) (es : List (KEvent α)) :
    KInst α × List (TEvent ε) :=
  krunFrom cfg (KInst.start cfg) es

/-- The ids of the currently live subscription handles of a keyed instance
(at most one, by construction of the subscription lifecycle). -/
def liveIds {α : Type} (s : KInst α) : List Nat :=
  match s.sub with
  | some pid => [pid.2]
  | none => []

/-- The cell of the wrapped hook (createWrappedStateHook) after a sequence
of delivered notifications: seeded with null via useState(null), overwritten
by the subscription callback on each delivery. -/
def wrappedCell {α : Type} (vs : List (JVal α)) : Option (JVal α) :=
  vs.foldl (fun _ v => some (wrappedStateHookCallback v)) none

/-- The value the wrapped hook returns: the cell itself, with no fallback
handling (useState(null) seeds it with null). -/
def wread {α : Type} (c : Option (JVal α)) : JVal α :=
  c.getD JVal.jnull

/-! ### Trace projection lemmas -/

@[simp] theorem subIds_nil {ε : Type} : subIds ([] : List (TEvent ε)) = [] := rfl

@[simp] theorem subIds_cons_action {ε : Type} (a : List Nat) (o : List ε)
    (tr : List (TEvent ε)) :
    subIds (TEvent.actionCall a o :: tr) = subIds tr := rfl

@[simp] theorem subIds_cons_sub {ε : Type} (p : String) (i : Nat)
    (tr : List (TEvent ε)) :
    subIds (TEvent.subscribeCall p i :: tr) = i :: subIds tr := rfl

@[simp] theorem subIds_cons_unsub {ε : Type} (p : String) (i : Nat)
    (tr : List (TEvent ε)) :
    subIds (TEvent.unsubCall p i :: tr) = subIds tr := rfl

@[simp] theorem subIds_append {ε : Type} (a b : List (TEvent ε)) :
    subIds (a ++ b) = subIds a ++ subIds b := by
  simp [subIds, List.filterMap_append]

@[simp] theorem unsubIds_nil {ε : Type} : unsubIds ([] : List (TEvent ε)) = [] := rfl

@[simp] theorem unsubIds_cons_action {ε : Type} (a : List Nat) (o : List ε)
    (tr : List (TEvent ε)) :
    unsubIds (TEvent.actionCall a o :: tr) = unsubIds tr := rfl

@[simp] theorem unsubIds_cons_sub {ε : Type} (p : String) (i : Nat)
    (tr : List (TEvent ε)) :
    unsubIds (TEvent.subscribeCall p i :: tr) = unsubIds tr := rfl

@[simp] theorem unsubIds_cons_unsub {ε : Type} (p : String) (i : Nat)
    (tr : List (TEvent ε)) :
    unsubIds (TEvent.unsubCall p i :: tr) = i :: unsubIds tr := rfl

@[simp] theorem unsubIds_append {ε : Type} (a b : List (TEvent ε)) :
    unsubIds (a ++ b) = unsubIds a ++ unsubIds b := by
  simp [unsubIds, List.filterMap_append]

@[simp] theorem actionCalls_nil {ε : Type} :
    actionCalls ([] : List (TEvent ε)) = [] := rfl

@[simp] theorem actionCalls_cons_action {ε : Type} (a : List Nat) (o : List ε)
    (tr : List (TEvent ε)) :
    actionCalls (TEvent.actionCall a o :: tr) = (a, o) :: actionCalls tr := rfl

@[simp] theorem actionCalls_cons_sub {ε : Type} (p : String) (i : Nat)
    (tr : List (TEvent ε)) :
    actionCalls (TEvent.subscribeCall p i :: tr) = actionCalls tr := rfl

@[simp] theorem actionCalls_cons_unsub {ε : Type} (p : String) (i : Nat)
    (tr : List (TEvent ε)) :
    actionCalls (TEvent.unsubCall p i :: tr) = actionCalls tr := rfl

@[simp] theorem actionCalls_append {ε : Type} (a b : List (TEvent ε)) :
    actionCalls (a ++ b) = actionCalls a ++ actionCalls b := by
  simp [actionCalls, List.filterMap_append]

@[simp] theorem actSubTags_nil {ε : Type} :
    actSubTags ([] : List (TEvent ε)) = [] := rfl

@[simp] theorem actSubTags_cons_action {ε : Type} (a : List Nat) (o : List ε)
    (tr : List (TEvent ε)) :
    actSubTags (TEvent.actionCall a o :: tr) = false :: actSubTags tr := rfl

@[simp] theorem actSubTags_cons_sub {ε : Type} (p : String) (i : Nat)
    (tr : List (TEvent ε)) :
    actSubTags (TEvent.subscribeCall p i :: tr) = true :: actSubTags tr := rfl

@[simp] theorem actSubTags_cons_unsub {ε : Type} (p : String) (i : Nat)
    (tr : List (TEvent ε)) :
    actSubTags (TEvent.unsubCall p i :: tr) = actSubTags tr := rfl

@[simp] theorem actSubTags_append {ε : Type} (a b : List (TEvent ε)) :
    actSubTags (a ++ b) = actSubTags a ++ actSubTags b := by
  simp [actSubTags, List.filterMap_append]

/-! ### Subscription balance invariant for the keyed hook -/

/-- The subscription-accounting invariant relating a keyed instance state to
the trace that produced it: handle ids are issued consecutively from 0; the
released ids together with the currently live id (if any) are exactly the
issued ids, each exactly once and in issue order; and the live handle is the
most recently issued one. -/
def KTraceInv {α ε : Type} (s : KInst α) (tr : List (TEvent ε)) : Prop :=
  subIds tr = List.range s.nextId ∧
  unsubIds tr ++ liveIds s = List.range s.nextId ∧
  ∀ p id, s.sub = some (p, id) → id + 1 = s.nextId

theorem kstep_inv {α ε : Type} (cfg : StateHookOptions α ε) (s : KInst α)
    (e : KEvent α) (tr : List (TEvent ε)) (h : KTraceInv s tr) :
    KTraceInv (kstep cfg s e).1 (tr ++ (kstep cfg s e).2) := by
  obtain ⟨h1, h2, h3⟩ := h
  cases e with
  | notify v =>
    cases hs : s.sub with
    | none =>
      refine ⟨by simpa [kstep, knotify, hs] using h1, ?_, ?_⟩
      · simpa [kstep, knotify, hs, liveIds] using h2
      · intro p id hid
        simp [kstep, knotify, hs] at hid
    | some pid =>
      refine ⟨by simpa [kstep, knotify, hs] using h1, ?_, ?_⟩
      · simpa [kstep, knotify, hs, liveIds] using h2
      · intro p id hid
        simp [kstep, knotify, hs] at hid ⊢
        exact h3 p id (by rw [hs, hid])
  | unmount =>
    cases hs : s.sub with
    | none =>
      refine ⟨by simpa [kstep, kunmount, hs] using h1, ?_, ?_⟩
      · simpa [kstep, kunmount, hs, liveIds] using h2
      · intro p id hid
        simp [kstep, kunmount, hs] at hid
    | some pid =>
      refine ⟨by simpa [kstep, kunmount, hs] using h1, ?_, ?_⟩
      · simp only [kstep, kunmount, hs]
        simpa [liveIds, hs] using h2
      · intro p id hid
        simp [kstep, kunmount, hs] at hid
  | render k i a =>
    by_cases hd : s.prevDeps = some (k, i, actionArr a)
    · refine ⟨by simpa [kstep, krender, hd] using h1, ?_, ?_⟩
      · simpa [kstep, krender, hd, liveIds] using h2
      · intro p id hid
        simp [kstep, krender, hd] at hid ⊢
        exact h3 p id (by rw [hid])
    · cases k with
      | none =>
        cases hs : s.sub with
        | none =>
          refine ⟨by simpa [kstep, krender, hd, hs] using h1, ?_, ?_⟩
          · simpa [kstep, krender, hd, hs, liveIds] using h2
          · intro p id hid
            simp [kstep, krender, hd, hs] at hid
        | some pid =>
          refine ⟨by simpa [kstep, krender, hd, hs] using h1, ?_, ?_⟩
          · simp only [kstep, krender, hd, hs]
            simpa [liveIds, hs] using h2
          · intro p id hid
            simp [kstep, krender, hd, hs] at hid
      | some key =>
        cases hs : s.sub with
        | none =>
          refine ⟨?_, ?_, ?_⟩
          · simp [kstep, krender, hd, hs, h1, List.range_succ]
            cases i <;> simp
          · simp only [kstep, krender, hd, hs]
            cases i <;> simp_all [liveIds, List.range_succ, hs]
          · intro p id hid
            simp [kstep, krender, hd, hs] at hid ⊢
            omega
        | some pid =>
          refine ⟨?_, ?_, ?_⟩
          · simp [kstep, krender, hd, hs, h1, List.range_succ]
            cases i <;> simp
          · simp only [kstep, krender, hd, hs]
            cases i <;> simp_all [liveIds, List.range_succ, hs]
          · intro p id hid
            simp [kstep, krender, hd, hs] at hid ⊢
            omega

theorem krunFrom_inv {α ε : Type} (cfg : StateHookOptions α ε) :
    ∀ (es : List (KEvent α)) (s : KInst α) (tr : List (TEvent ε)),
      KTraceInv s tr →
      KTraceInv (krunFrom cfg s es).1 (tr ++ (krunFrom cfg s es).2)
  | [], s, tr, h => by simpa [krunFrom] using h
  | e :: es, s, tr, h => by
    have h1 := kstep_inv cfg s e tr h
    have h2 := krunFrom_inv cfg es (kstep cfg s e).1
      (tr ++ (kstep cfg s e).2) h1
    simpa [krunFrom, List.append_assoc] using h2

theorem KTraceInv_start {α ε : Type} (cfg : StateHookOptions α ε) :
    KTraceInv (KInst.start cfg) ([] : List (TEvent ε)) := by
  refine ⟨rfl, rfl, ?_⟩
  intro p id hid
  simp [KInst.start] at hid

theorem krun_inv {α ε : Type} (cfg : StateHookOptions α ε)
    (es : List (KEvent α)) :
    KTraceInv (α := α) (ε := ε) (krun cfg es).1 (krun cfg es).2 := by
  have h := krunFrom_inv cfg es (KInst.start cfg) [] (KTraceInv_start cfg)
  simpa [krun] using h

theorem krunFrom_append {α ε : Type} (cfg : StateHookOptions α ε) :
    ∀ (es1 es2 : List (KEvent α)) (s : KInst α),
      krunFrom (ε := ε) cfg s (es1 ++ es2) =
        ((krunFrom cfg (krunFrom (ε := ε) cfg s es1).1 es2).1,
         (krunFrom (ε := ε) cfg s es1).2 ++
           (krunFrom cfg (krunFrom (ε := ε) cfg s es1).1 es2).2)
  | [], es2, s => by simp [krunFrom]
  | e :: es1, es2, s => by
    simp [krunFrom, krunFrom_append cfg es1 es2 (kstep cfg s e).1,
      List.append_assoc]

theorem kunmount_sub_none {α ε : Type} (s : KInst α) :
    ((kunmount (ε := ε) s).1).sub = none := by
  cases hs : s.sub <;> simp [kunmount, hs]

/-! ### Shared concrete instances used by witnesses and counterexamples -/

/-- A concrete factory configuration: property "product", absent action,
initialValue 5. -/
def natCfg : StateHookOptions Nat Nat :=
  { property := "product"
    action := SuppliedAction.absent
    initialValue := JVal.val 5 }

/-- A concrete keyed instance with a live subscription to "product.k1". -/
def kinstLive : KInst Nat :=
  { ivc := JVal.val 5
    cell := some (JVal.val 7)
    sub := some ("product.k1", 0)
    prevDeps := none
    nextId := 1 }

/-- A concrete action-bound instance with a live subscription. -/
def pinstLive : PInst Nat :=
  { ivc := JVal.val 5
    cell := some (JVal.val 7)
    sub := some 0
    prevDeps := none
    nextId := 1 }

/-! ### Claims -/

/-- C4: for every keyed-hook component instance and every sequence of
renders, notifications and the final unmount, unsubscribe is called exactly
once per subscribe call: at any point of the lifecycle the issued handle ids
are exactly the released ids followed by the at-most-one live id (so no
handle leaks and none is released twice), after the unmount the released ids
are exactly the issued ids, and on a key change while a subscription to
property.k1 is live the release of property.k1 is emitted first, before
property.k2 is subscribed. -/
theorem keyedHook_subscription_balance :
    (∀ (α ε : Type) (cfg : StateHookOptions α ε) (es : List (KEvent α)),
       subIds (krun (ε := ε) cfg es).2 =
         unsubIds (krun (ε := ε) cfg es).2 ++
           liveIds (krun (ε := ε) cfg es).1) ∧
    (∀ (α ε : Type) (cfg : StateHookOptions α ε) (es : List (KEvent α)),
       subIds (krun (ε := ε) cfg (es ++ [KEvent.unmount])).2 =
         unsubIds (krun (ε := ε) cfg (es ++ [KEvent.unmount])).2) ∧
    (∀ (α ε : Type) (cfg : StateHookOptions α ε) (s : KInst α) (p1 : String)
       (id1 : Nat) (k2 : String) (b : Bool) (a : Option (List Nat)),
       s.sub = some (p1, id1) →
       s.prevDeps ≠ some (some k2, b, actionArr a) →
       (krender (ε := ε) cfg s (some k2) b a).2 =
         TEvent.unsubCall p1 id1 ::
           ((if b then
               [TEvent.actionCall (actionArr a)
                 (actionFn cfg.action (actionArr a))]
             else []) ++
            [TEvent.subscribeCall (cfg.property ++ "." ++ k2) s.nextId])) := by
  refine ⟨?_, ?_, ?_⟩
  · intro α ε cfg es
    obtain ⟨h1, h2, _⟩ := krun_inv (ε := ε) cfg es
    exact h1.trans h2.symm
  · intro α ε cfg es
    obtain ⟨h1, h2, _⟩ := krun_inv (ε := ε) cfg (es ++ [KEvent.unmount])
    have hend : (krun (ε := ε) cfg (es ++ [KEvent.unmount])).1 =
        (kunmount (ε := ε) (krun (ε := ε) cfg es).1).1 := by
      simp [krun, krunFrom_append, krunFrom, kstep]
    have hlive : liveIds (krun (ε := ε) cfg (es ++ [KEvent.unmount])).1 = [] := by
      rw [hend]
      simp [liveIds, kunmount_sub_none]
    rw [hlive, List.append_nil] at h2
    exact h1.trans h2.symm
  · intro α ε cfg s p1 id1 k2 b a hs hd
    simp [krender, hd, hs]

/-- C4 witness: the balance holds on a concrete run, and a concrete key
change from k1 to k2 emits the release of product.k1 first, then the action
invocation and the subscribe call for product.k2. -/
theorem keyedHook_subscription_balance_witness :
    (subIds (krun (ε := Nat) natCfg [KEvent.render (some "k1") true none]).2 =
       unsubIds (krun (ε := Nat) natCfg [KEvent.render (some "k1") true none]).2 ++
         liveIds (krun (ε := Nat) natCfg [KEvent.render (some "k1") true none]).1) ∧
    (krender (ε := Nat) natCfg kinstLive (some "k2") true none).2 =
      TEvent.unsubCall "product.k1" 0 ::
        ((if true then
            [TEvent.actionCall (actionArr none)
              (actionFn natCfg.action (actionArr none))]
          else []) ++
         [TEvent.subscribeCall (natCfg.property ++ "." ++ "k2")
           kinstLive.nextId]) := by
  constructor
  · exact keyedHook_subscription_balance.1 Nat Nat natCfg
      [KEvent.render (some "k1") true none]
  · exact keyedHook_subscription_balance.2.2 Nat Nat natCfg kinstLive
      "product.k1" 0 "k2" true none rfl (fun h => Option.noConfusion h)

/-! ### Idle behavior of the keyed hook -/

/-- Events of a keyed instance that never carry a defined key: renders with a
nil key, store notifications, unmount. -/
def kidle {α : Type} : KEvent α → Bool
  | .render (some _) _ _ => false
  | _ => true

/-- normIvc is idempotent. -/
theorem normIvc_normIvc {α : Type} (x : JVal α) :
    normIvc (normIvc x) = normIvc x := by
  cases x <;> rfl

/-- hookReturn with a null state does not distinguish the fallback cell from
its normalization. -/
theorem hookReturn_jnull_normIvc {α : Type} (x : JVal α) :
    hookReturn JVal.jnull (normIvc x) = hookReturn JVal.jnull x := by
  cases x <;> rfl

/-- The state invariant of a keyed instance that has only ever seen idle
events: no subscription, a cell still at its seed, and a fallback cell equal
to the configured initial value or its normalization. -/
def KIdleInv {α : Type} (i : JVal α) (s : KInst α) : Prop :=
  s.sub = none ∧ (s.cell = none ∨ s.cell = some JVal.jnull) ∧
  (s.ivc = i ∨ s.ivc = normIvc i)

theorem kstep_idle {α ε : Type} (cfg : StateHookOptions α ε) (i : JVal α)
    (s : KInst α) (e : KEvent α) (he : kidle e = true)
    (h : KIdleInv i s) : KIdleInv i (kstep cfg s e).1 ∧
      (kstep (ε := ε) cfg s e).2 = [] := by
  obtain ⟨hsub, hcell, hivc⟩ := h
  cases e with
  | notify v =>
    simp [kstep, knotify, hsub]
    exact ⟨hsub, hcell, hivc⟩
  | unmount =>
    simp [kstep, kunmount, hsub]
    exact ⟨hsub, hcell, hivc⟩
  | render k b a =>
    cases k with
    | some key => simp [kidle] at he
    | none =>
      by_cases hd : s.prevDeps = some (none, b, actionArr a)
      · refine ⟨⟨?_, ?_, ?_⟩, ?_⟩
        · simpa [kstep, krender, hd] using hsub
        · rcases hcell with hc | hc <;> simp [kstep, krender, hd, hc]
        · simpa [kstep, krender, hd] using hivc
        · simp [kstep, krender, hd]
      · refine ⟨⟨?_, ?_, ?_⟩, ?_⟩
        · simp [kstep, krender, hd]
        · rcases hcell with hc | hc <;> simp [kstep, krender, hd, hc]
        · rcases hivc with hi | hi <;>
            simp [kstep, krender, hd, hi, normIvc_normIvc]
        · simp [kstep, krender, hd, hsub]

theorem krunFrom_idle {α ε : Type} (cfg : StateHookOptions α ε) (i : JVal α) :
    ∀ (es : List (KEvent α)) (s : KInst α), (∀ e ∈ es, kidle e = true) →
      KIdleInv i s →
      KIdleInv i (krunFrom cfg s es).1 ∧
        (krunFrom (ε := ε) cfg s es).2 = []
  | [], s, _, h => ⟨h, rfl⟩
  | e :: es, s, hes, h => by
    have he : kidle e = true := hes e (by simp)
    have h1 := kstep_idle cfg i s e he h
    have h2 := krunFrom_idle cfg i es (kstep cfg s e).1
      (fun x hx => hes x (by simp [hx])) h1.1
    refine ⟨by simpa [krunFrom] using h2.1, ?_⟩
    simp [krunFrom, h1.2, h2.2]

/-- C5: while the key is absent the keyed hook is inert: across any number
of renders with a nil key (and any notifications and unmount), no subscribe
call and no action invocation is ever emitted — the lifecycle trace is
empty — and the hook returns the "no value" marker, or the fallback value
when the configured initial value is defined. -/
theorem keyedHook_idle_inert :
    ∀ (α ε : Type) (cfg : StateHookOptions α ε) (es : List (KEvent α)),
      (∀ e ∈ es, kidle e = true) →
      (krun (ε := ε) cfg es).2 = [] ∧
      actionCalls (krun (ε := ε) cfg es).2 = [] ∧
      subIds (krun (ε := ε) cfg es).2 = [] ∧
      kread (krun (ε := ε) cfg es).1 =
        hookReturn JVal.jnull cfg.initialValue := by
  intro α ε cfg es hes
  have hstart : KIdleInv cfg.initialValue (KInst.start (ε := ε) cfg) :=
    ⟨rfl, Or.inl rfl, Or.inl rfl⟩
  have h := krunFrom_idle cfg cfg.initialValue es (KInst.start cfg) hes hstart
  obtain ⟨⟨hsub, hcell, hivc⟩, htr⟩ := h
  refine ⟨htr, by simp [krun] at htr ⊢; simp [htr], by simp [krun] at htr ⊢; simp [htr], ?_⟩
  have hc : ((krunFrom (ε := ε) cfg (KInst.start cfg) es).1.cell).getD JVal.jnull =
      JVal.jnull := by
    rcases hcell with hc | hc <;> simp [hc]
  rcases hivc with hi | hi
  · simp [krun, kread, hc, hi]
  · simp [krun, kread, hc, hi, hookReturn_jnull_normIvc]

/-- C5 witness: a concrete idle lifecycle emits nothing and reads the
fallback value. -/
theorem keyedHook_idle_inert_witness :
    (krun (ε := Nat) natCfg
        [KEvent.render none true (some [1]), KEvent.notify (JVal.val 3),
         KEvent.render none false none, KEvent.unmount]).2 = [] ∧
    actionCalls (krun (ε := Nat) natCfg
        [KEvent.render none true (some [1]), KEvent.notify (JVal.val 3),
         KEvent.render none false none, KEvent.unmount]).2 = [] ∧
    subIds (krun (ε := Nat) natCfg
        [KEvent.render none true (some [1]), KEvent.notify (JVal.val 3),
         KEvent.render none false none, KEvent.unmount]).2 = [] ∧
    kread (krun (ε := Nat) natCfg
        [KEvent.render none true (some [1]), KEvent.notify (JVal.val 3),
         KEvent.render none false none, KEvent.unmount]).1 =
      hookReturn JVal.jnull natCfg.initialValue := by
  exact keyedHook_idle_inert Nat Nat natCfg
    [KEvent.render none true (some [1]), KEvent.notify (JVal.val 3),
     KEvent.render none false none, KEvent.unmount] (by decide)

/-! ### Ordering of action invocation and subscription -/

/-- C6: within any single activation (effect run) of the action-bound or the
keyed hook, the action invocation — when one happens — precedes the
subscribe call: the action/subscribe skeleton of the events emitted by one
render is empty, a lone subscribe, or an action invocation followed by a
subscribe, never a subscribe before an action. Moreover, on the keyed
transition from Idle to a defined key, the activation invokes the action
with the action arguments (when invokeAction is true) and then subscribes to
exactly the concatenated path property ++ "." ++ key. -/
theorem action_precedes_subscribe :
    (∀ (α ε : Type) (cfg : StateHookOptions α ε) (s : PInst α) (b : Bool)
       (a : Option (List Nat)),
       actSubTags (prender (ε := ε) cfg s b a).2 = [] ∨
       actSubTags (prender (ε := ε) cfg s b a).2 = [true] ∨
       actSubTags (prender (ε := ε) cfg s b a).2 = [false, true]) ∧
    (∀ (α ε : Type) (cfg : StateHookOptions α ε) (s : KInst α)
       (k : Option String) (b : Bool) (a : Option (List Nat)),
       actSubTags (krender (ε := ε) cfg s k b a).2 = [] ∨
       actSubTags (krender (ε := ε) cfg s k b a).2 = [true] ∨
       actSubTags (krender (ε := ε) cfg s k b a).2 = [false, true]) ∧
    (∀ (α ε : Type) (cfg : StateHookOptions α ε) (s : KInst α) (k : String)
       (b : Bool) (a : Option (List Nat)),
       s.sub = none →
       s.prevDeps ≠ some (some k, b, actionArr a) →
       (krender (ε := ε) cfg s (some k) b a).2 =
         (if b then
            [TEvent.actionCall (actionArr a)
              (actionFn cfg.action (actionArr a))]
          else []) ++
         [TEvent.subscribeCall (cfg.property ++ "." ++ k) s.nextId]) := by
  refine ⟨?_, ?_, ?_⟩
  · intro α ε cfg s b a
    by_cases hd : s.prevDeps = some (b, actionArr a)
    · simp [prender, hd]
    · cases hs : s.sub <;> cases b <;> simp [prender, hd, hs]
  · intro α ε cfg s k b a
    by_cases hd : s.prevDeps = some (k, b, actionArr a)
    · simp [krender, hd]
    · cases k with
      | none => cases hs : s.sub <;> simp [krender, hd, hs]
      | some key => cases hs : s.sub <;> cases b <;> simp [krender, hd, hs]
  · intro α ε cfg s k b a hs hd
    simp [krender, hd, hs]

/-- C6 witness: a concrete Idle-to-Active activation invokes the action and
then subscribes to product.k1; the skeleton of a concrete action-bound
activation is an action invocation followed by a subscribe. -/
theorem action_precedes_subscribe_witness :
    ((krender (ε := Nat) natCfg (KInst.start natCfg) (some "k1") true
        (some [2])).2 =
      (if true then
         [TEvent.actionCall (actionArr (some [2]))
           (actionFn natCfg.action (actionArr (some [2])))]
       else []) ++
      [TEvent.subscribeCall (natCfg.property ++ "." ++ "k1")
        (KInst.start (ε := Nat) natCfg).nextId]) ∧
    (actSubTags (prender (ε := Nat) natCfg (PInst.start natCfg) true none).2 = [] ∨
     actSubTags (prender (ε := Nat) natCfg (PInst.start natCfg) true none).2 = [true] ∨
     actSubTags (prender (ε := Nat) natCfg (PInst.start natCfg) true none).2 =
       [false, true]) := by
  constructor
  · exact action_precedes_subscribe.2.2 Nat Nat natCfg (KInst.start natCfg)
      "k1" true (some [2]) rfl (fun h => Option.noConfusion h)
  · exact action_precedes_subscribe.1 Nat Nat natCfg (PInst.start natCfg)
      true none

/-! ### The invokeAction gate -/

/-- Events of an action-bound instance that never ask for the action:
renders with invokeAction false, notifications, unmount. -/
def pnoInvoke {α : Type} : PEvent α → Bool
  | .render b _ => !b
  | _ => true

theorem pstep_noInvoke {α ε : Type} (cfg : StateHookOptions α ε)
    (s : PInst α) (e : PEvent α) (he : pnoInvoke e = true) :
    actionCalls (pstep (ε := ε) cfg s e).2 = [] := by
  cases e with
  | notify v => rfl
  | unmount => cases hs : s.sub <;> simp [pstep, punmount, hs]
  | render b a =>
    have hb : b = false := by simpa [pnoInvoke] using he
    subst hb
    by_cases hd : s.prevDeps = some (false, actionArr a)
    · simp [pstep, prender, hd]
    · cases hs : s.sub <;> simp [pstep, prender, hd, hs]

theorem prunFrom_noInvoke {α ε : Type} (cfg : StateHookOptions α ε) :
    ∀ (es : List (PEvent α)) (s : PInst α), (∀ e ∈ es, pnoInvoke e = true) →
      actionCalls (prunFrom (ε := ε) cfg s es).2 = []
  | [], _, _ => rfl
  | e :: es, s, hes => by
    have h1 := pstep_noInvoke cfg s e (hes e (by simp))
    have h2 := prunFrom_noInvoke cfg es (pstep cfg s e).1
      (fun x hx => hes x (by simp [hx]))
    simp [prunFrom, h1, h2]

/-- C7: calling the action-bound hook with invokeAction always false yields
zero action invocations across any sequence of renders, notifications and
unmount; yet every activation (every render whose dependency list differs
from the previous effect run) still emits exactly one subscribe call to the
configured property, for any value of invokeAction — subscribing is
unconditional, only the action call is gated. -/
theorem invokeAction_false_inert :
    (∀ (α ε : Type) (cfg : StateHookOptions α ε) (es : List (PEvent α)),
       (∀ e ∈ es, pnoInvoke e = true) →
       actionCalls (prun (ε := ε) cfg es).2 = []) ∧
    (∀ (α ε : Type) (cfg : StateHookOptions α ε) (s : PInst α) (b : Bool)
       (a : Option (List Nat)),
       s.prevDeps ≠ some (b, actionArr a) →
       subIds (prender (ε := ε) cfg s b a).2 = [s.nextId] ∧
       subPaths (prender (ε := ε) cfg s b a).2 = [cfg.property]) := by
  constructor
  · intro α ε cfg es hes
    exact prunFrom_noInvoke cfg es (PInst.start cfg) hes
  · intro α ε cfg s b a hd
    cases hs : s.sub <;> cases b <;>
      simp [prender, hd, hs, subIds, subPaths, List.filterMap]

/-- C7 witness: a concrete run with invokeAction false on every render emits
no action invocation, and a concrete activation with invokeAction false
still emits exactly one subscribe call to the configured property. -/
theorem invokeAction_false_inert_witness :
    actionCalls (prun (ε := Nat) natCfg
        [PEvent.render false none, PEvent.notify (JVal.val 3),
         PEvent.render false (some [1]), PEvent.unmount]).2 = [] ∧
    subIds (prender (ε := Nat) natCfg (PInst.start natCfg) false none).2 =
      [(PInst.start (ε := Nat) natCfg).nextId] ∧
    subPaths (prender (ε := Nat) natCfg (PInst.start natCfg) false none).2 =
      [natCfg.property] := by
  refine ⟨?_, ?_⟩
  · exact invokeAction_false_inert.1 Nat Nat natCfg
      [PEvent.render false none, PEvent.notify (JVal.val 3),
       PEvent.render false (some [1]), PEvent.unmount] (by decide)
  · exact invokeAction_false_inert.2 Nat Nat natCfg (PInst.start natCfg)
      false none (fun h => Option.noConfusion h)

/-! ### Defaulting of a missing or non-callable action -/

/-- C8: when the supplied action is absent or not callable, the factory
silently substitutes the no-operation callable for it instead of raising
an error; the no-operation callable produces no observable store effect,
and an activation with invokeAction true still invokes it — exactly one
invocation, with empty observable output. -/
theorem action_defaults_to_noop :
    (∀ ε : Type, actionFn (SuppliedAction.absent : SuppliedAction ε) = noop) ∧
    (∀ ε : Type,
       actionFn (SuppliedAction.notCallable : SuppliedAction ε) = noop) ∧
    (∀ (ε : Type) (args : List Nat), (noop : List Nat → List ε) args = []) ∧
    (∀ (α ε : Type) (cfg : StateHookOptions α ε) (s : PInst α)
       (a : Option (List Nat)),
       cfg.action = SuppliedAction.absent ∨
         cfg.action = SuppliedAction.notCallable →
       s.prevDeps ≠ some (true, actionArr a) →
       actionCalls (prender (ε := ε) cfg s true a).2 = [(actionArr a, [])]) := by
  refine ⟨fun ε => rfl, fun ε => rfl, fun ε args => rfl, ?_⟩
  intro α ε cfg s a hact hd
  rcases hact with h | h <;>
    cases hs : s.sub <;> simp [prender, hd, hs, h, actionFn, noop]

/-- C8 witness: with the absent action of the concrete configuration, a
concrete activation with invokeAction true records exactly one invocation
with no observable effect. -/
theorem action_defaults_to_noop_witness :
    actionCalls (prender (ε := Nat) natCfg (PInst.start natCfg) true
        (some [4])).2 = [(actionArr (some [4]), [])] := by
  exact action_defaults_to_noop.2.2.2 Nat Nat natCfg (PInst.start natCfg)
    (some [4]) (Or.inl rfl) (fun h => Option.noConfusion h)

/-! ### Stability of the fallback value slot -/

/-- normIvc is the identity on values that are not undefined. -/
theorem normIvc_of_not_undef {α : Type} (x : JVal α)
    (h : x.isUndefined = false) : normIvc x = x := by
  cases x <;> simp_all [normIvc, JVal.isUndefined]

theorem pstep_ivc_cases {α ε : Type} (cfg : StateHookOptions α ε)
    (s : PInst α) (e : PEvent α) :
    (pstep (ε := ε) cfg s e).1.ivc = s.ivc ∨
    (pstep (ε := ε) cfg s e).1.ivc = normIvc s.ivc := by
  cases e with
  | notify v => cases hs : s.sub <;> simp [pstep, pnotify, hs]
  | unmount => cases hs : s.sub <;> simp [pstep, punmount, hs]
  | render b a =>
    by_cases hd : s.prevDeps = some (b, actionArr a) <;>
      cases hs : s.sub <;> simp [pstep, prender, hd, hs]

theorem kstep_ivc_cases {α ε : Type} (cfg : StateHookOptions α ε)
    (s : KInst α) (e : KEvent α) :
    (kstep (ε := ε) cfg s e).1.ivc = s.ivc ∨
    (kstep (ε := ε) cfg s e).1.ivc = normIvc s.ivc := by
  cases e with
  | notify v => cases hs : s.sub <;> simp [kstep, knotify, hs]
  | unmount => cases hs : s.sub <;> simp [kstep, kunmount, hs]
  | render k b a =>
    by_cases hd : s.prevDeps = some (k, b, actionArr a)
    · simp [kstep, krender, hd]
    · cases k <;> cases hs : s.sub <;> simp [kstep, krender, hd, hs]

theorem prunFrom_ivc {α ε : Type} (cfg : StateHookOptions α ε) (i : JVal α) :
    ∀ (es : List (PEvent α)) (s : PInst α),
      s.ivc = i ∨ s.ivc = normIvc i →
      (prunFrom (ε := ε) cfg s es).1.ivc = i ∨
        (prunFrom (ε := ε) cfg s es).1.ivc = normIvc i
  | [], s, h => by simpa [prunFrom] using h
  | e :: es, s, h => by
    have h1 : (pstep (ε := ε) cfg s e).1.ivc = i ∨
        (pstep (ε := ε) cfg s e).1.ivc = normIvc i := by
      rcases pstep_ivc_cases (ε := ε) cfg s e with hc | hc <;>
        rcases h with hi | hi <;> simp [hc, hi, normIvc_normIvc]
    have h2 := prunFrom_ivc cfg i es (pstep cfg s e).1 h1
    simpa [prunFrom] using h2

theorem krunFrom_ivc {α ε : Type} (cfg : StateHookOptions α ε) (i : JVal α) :
    ∀ (es : List (KEvent α)) (s : KInst α),
      s.ivc = i ∨ s.ivc = normIvc i →
      (krunFrom (ε := ε) cfg s es).1.ivc = i ∨
        (krunFrom (ε := ε) cfg s es).1.ivc = normIvc i
  | [], s, h => by simpa [krunFrom] using h
  | e :: es, s, h => by
    have h1 : (kstep (ε := ε) cfg s e).1.ivc = i ∨
        (kstep (ε := ε) cfg s e).1.ivc = normIvc i := by
      rcases kstep_ivc_cases (ε := ε) cfg s e with hc | hc <;>
        rcases h with hi | hi <;> simp [hc, hi, normIvc_normIvc]
    have h2 := krunFrom_ivc cfg i es (kstep cfg s e).1 h1
    simpa [krunFrom] using h2

/-- C9: the fallback value slot is seeded from initialValue; normalization
turns an unset (undefined) slot into the explicit "no value" marker (null)
and leaves every defined slot unchanged; along every run of either hook the
slot only ever holds the seeded value or its normalization; and once the
slot holds a defined (non-undefined) value, no step of either hook ever
changes it again. -/
theorem fallback_slot_stable :
    (∀ (α ε : Type) (cfg : StateHookOptions α ε),
       (PInst.start (ε := ε) cfg).ivc = cfg.initialValue ∧
       (KInst.start (ε := ε) cfg).ivc = cfg.initialValue) ∧
    (∀ (α : Type) (x : JVal α),
       (x.isUndefined = true → normIvc x = JVal.jnull) ∧
       (x.isUndefined = false → normIvc x = x)) ∧
    (∀ (α ε : Type) (cfg : StateHookOptions α ε) (es : List (PEvent α)),
       (prun (ε := ε) cfg es).1.ivc = cfg.initialValue ∨
       (prun (ε := ε) cfg es).1.ivc = normIvc cfg.initialValue) ∧
    (∀ (α ε : Type) (cfg : StateHookOptions α ε) (es : List (KEvent α)),
       (krun (ε := ε) cfg es).1.ivc = cfg.initialValue ∨
       (krun (ε := ε) cfg es).1.ivc = normIvc cfg.initialValue) ∧
    (∀ (α ε : Type) (cfg : StateHookOptions α ε) (s : PInst α) (e : PEvent α),
       s.ivc.isUndefined = false → (pstep (ε := ε) cfg s e).1.ivc = s.ivc) ∧
    (∀ (α ε : Type) (cfg : StateHookOptions α ε) (s : KInst α) (e : KEvent α),
       s.ivc.isUndefined = false → (kstep (ε := ε) cfg s e).1.ivc = s.ivc) := by
  refine ⟨fun α ε cfg => ⟨rfl, rfl⟩, ?_, ?_, ?_, ?_, ?_⟩
  · intro α x
    constructor
    · intro h
      cases x <;> simp_all [normIvc, JVal.isUndefined]
    · exact normIvc_of_not_undef x
  · intro α ε cfg es
    exact prunFrom_ivc cfg cfg.initialValue es (PInst.start cfg) (Or.inl rfl)
  · intro α ε cfg es
    exact krunFrom_ivc cfg cfg.initialValue es (KInst.start cfg) (Or.inl rfl)
  · intro α ε cfg s e h
    rcases pstep_ivc_cases (ε := ε) cfg s e with hc | hc <;>
      simp [hc, normIvc_of_not_undef s.ivc h]
  · intro α ε cfg s e h
    rcases kstep_ivc_cases (ε := ε) cfg s e with hc | hc <;>
      simp [hc, normIvc_of_not_undef s.ivc h]

/-- C9 witness: a concrete undefined slot is normalized to null, a concrete
defined slot is left alone, and a concrete step does not change the defined
slot of a concrete live instance. -/
theorem fallback_slot_stable_witness :
    normIvc (JVal.undef : JVal Nat) = JVal.jnull ∧
    normIvc (JVal.val 5 : JVal Nat) = JVal.val 5 ∧
    (pstep (ε := Nat) natCfg pinstLive (PEvent.notify (JVal.val 3))).1.ivc =
      pinstLive.ivc ∧
    (kstep (ε := Nat) natCfg kinstLive (KEvent.notify (JVal.val 3))).1.ivc =
      kinstLive.ivc := by
  refine ⟨?_, ?_, ?_, ?_⟩
  · exact (fallback_slot_stable.2.1 Nat JVal.undef).1 rfl
  · exact (fallback_slot_stable.2.1 Nat (JVal.val 5)).2 rfl
  · exact fallback_slot_stable.2.2.2.2.1 Nat Nat natCfg pinstLive
      (PEvent.notify (JVal.val 3)) rfl
  · exact fallback_slot_stable.2.2.2.2.2 Nat Nat natCfg kinstLive
      (KEvent.notify (JVal.val 3)) rfl

/-! ### The hook never returns the undefined sentinel -/

theorem stateHookCallback_ne_undef {α : Type} (v : JVal α) :
    stateHookCallback v ≠ JVal.undef := by
  cases v <;> simp [stateHookCallback, JVal.isUndefined]

theorem normIvc_ne_undef {α : Type} (x : JVal α) :
    normIvc x ≠ JVal.undef := by
  cases x <;> simp [normIvc, JVal.isUndefined]

theorem hookReturn_ne_undef {α : Type} (st i : JVal α)
    (h : st ≠ JVal.undef) : hookReturn st i ≠ JVal.undef := by
  by_cases hc : (st.isNil && !i.isNil) = true
  · have hi : i.isNil = false := by
      cases hn : i.isNil <;> simp_all
    simp only [hookReturn, hc, if_true]
    cases i <;> simp_all [JVal.isNil]
  · simpa [hookReturn, hc] using h

/-- The useState cell of the action-bound instance never holds the
undefined sentinel. -/
def PCellOk {α : Type} (s : PInst α) : Prop :=
  ∀ c, s.cell = some c → c ≠ JVal.undef

/-- The useState cell of the keyed instance never holds the undefined
sentinel. -/
def KCellOk {α : Type} (s : KInst α) : Prop :=
  ∀ c, s.cell = some c → c ≠ JVal.undef

theorem pstep_cellOk {α ε : Type} (cfg : StateHookOptions α ε) (s : PInst α)
    (e : PEvent α) (h : PCellOk s) : PCellOk (pstep (ε := ε) cfg s e).1 := by
  cases e with
  | notify v =>
    intro c hc
    cases hs : s.sub <;> simp [pstep, pnotify, hs] at hc
    · exact h c (by rw [hc])
    · rw [← hc]
      exact stateHookCallback_ne_undef v
  | unmount =>
    intro c hc
    cases hs : s.sub <;> simp [pstep, punmount, hs] at hc <;>
      exact h c (by rw [hc])
  | render b a =>
    intro c hc
    have hcell : c = s.cell.getD (normIvc s.ivc) := by
      by_cases hd : s.prevDeps = some (b, actionArr a) <;>
        simp [pstep, prender, hd] at hc <;> exact hc.symm
    rw [hcell]
    cases ho : s.cell with
    | none => simpa [ho] using normIvc_ne_undef s.ivc
    | some c0 => simpa [ho] using h c0 ho

theorem kstep_cellOk {α ε : Type} (cfg : StateHookOptions α ε) (s : KInst α)
    (e : KEvent α) (h : KCellOk s) : KCellOk (kstep (ε := ε) cfg s e).1 := by
  cases e with
  | notify v =>
    intro c hc
    cases hs : s.sub <;> simp [kstep, knotify, hs] at hc
    · exact h c (by rw [hc])
    · rw [← hc]
      cases v <;> simp [keyedStateHookCallback, JVal.isUndefined]
  | unmount =>
    intro c hc
    cases hs : s.sub <;> simp [kstep, kunmount, hs] at hc <;>
      exact h c (by rw [hc])
  | render k b a =>
    intro c hc
    have hcell : c = s.cell.getD JVal.jnull := by
      by_cases hd : s.prevDeps = some (k, b, actionArr a)
      · simp [kstep, krender, hd] at hc
        exact hc.symm
      · cases k <;> simp [kstep, krender, hd] at hc <;> exact hc.symm
    rw [hcell]
    cases ho : s.cell with
    | none => simp [ho]
    | some c0 => simpa [ho] using h c0 ho

theorem prunFrom_cellOk {α ε : Type} (cfg : StateHookOptions α ε) :
    ∀ (es : List (PEvent α)) (s : PInst α), PCellOk s →
      PCellOk (prunFrom (ε := ε) cfg s es).1
  | [], s, h => by simpa [prunFrom] using h
  | e :: es, s, h => by
    have h2 := prunFrom_cellOk cfg es (pstep cfg s e).1
      (pstep_cellOk cfg s e h)
    simpa [prunFrom] using h2

theorem krunFrom_cellOk {α ε : Type} (cfg : StateHookOptions α ε) :
    ∀ (es : List (KEvent α)) (s : KInst α), KCellOk s →
      KCellOk (krunFrom (ε := ε) cfg s es).1
  | [], s, h => by simpa [krunFrom] using h
  | e :: es, s, h => by
    have h2 := krunFrom_cellOk cfg es (kstep cfg s e).1
      (kstep_cellOk cfg s e h)
    simpa [krunFrom] using h2

theorem pread_ne_undef_of_cellOk {α : Type} (s : PInst α) (h : PCellOk s) :
    pread s ≠ JVal.undef := by
  unfold pread
  refine hookReturn_ne_undef _ _ ?_
  cases ho : s.cell with
  | none => simpa [ho] using normIvc_ne_undef s.ivc
  | some c0 => simpa [ho] using h c0 ho

theorem kread_ne_undef_of_cellOk {α : Type} (s : KInst α) (h : KCellOk s) :
    kread s ≠ JVal.undef := by
  unfold kread
  refine hookReturn_ne_undef _ _ ?_
  cases ho : s.cell with
  | none => simp [ho]
  | some c0 => simpa [ho] using h c0 ho

theorem wrappedStateHookCallback_ne_undef {α : Type} (v : JVal α) :
    wrappedStateHookCallback v ≠ JVal.undef := by
  cases v <;> simp [wrappedStateHookCallback, JVal.isUndefined]

theorem wread_foldl_ne_undef {α : Type} :
    ∀ (vs : List (JVal α)) (c : Option (JVal α)), wread c ≠ JVal.undef →
      wread (vs.foldl (fun _ v => some (wrappedStateHookCallback v)) c) ≠
        JVal.undef
  | [], c, h => h
  | v :: vs, c, _ => by
    have h2 := wread_foldl_ne_undef vs (some (wrappedStateHookCallback v))
      (by simpa [wread] using wrappedStateHookCallback_ne_undef v)
    simpa [List.foldl] using h2

/-- C10: for every factory variant, every configuration and every sequence
of renders, delivered notifications and unmount, the value the hook returns
is never the undefined sentinel: delivered undefined is normalized to null
before storage, the per-instance cell is seeded with null or the normalized
fallback, and the undefined initial value is normalized before it can be
returned. Covers the action-bound instance, the keyed instance, and the
wrapped variant's cell after any sequence of deliveries. -/
theorem hook_never_returns_undefined :
    (∀ (α ε : Type) (cfg : StateHookOptions α ε) (es : List (PEvent α)),
       pread (prun (ε := ε) cfg es).1 ≠ JVal.undef) ∧
    (∀ (α ε : Type) (cfg : StateHookOptions α ε) (es : List (KEvent α)),
       kread (krun (ε := ε) cfg es).1 ≠ JVal.undef) ∧
    (∀ (α : Type) (vs : List (JVal α)),
       wread (wrappedCell vs) ≠ JVal.undef) := by
  refine ⟨?_, ?_, ?_⟩
  · intro α ε cfg es
    refine pread_ne_undef_of_cellOk _ ?_
    exact prunFrom_cellOk cfg es (PInst.start cfg)
      (fun c hc => by simp [PInst.start] at hc)
  · intro α ε cfg es
    refine kread_ne_undef_of_cellOk _ ?_
    exact krunFrom_cellOk cfg es (KInst.start cfg)
      (fun c hc => by simp [KInst.start] at hc)
  · intro α vs
    exact wread_foldl_ne_undef vs none (by simp [wread])

/-! ### Delivered values, the fallback, and the read contract -/

/-- C1 counterexample: with a configured fallback (initialValue 5), a
notification delivering the concrete value null is NOT returned as null on
the next read: the read yields the fallback 5, because the stored null is
indistinguishable from the "no value" marker in the nil-check of the read
path. -/
theorem delivered_null_fallback_cex :
    pread (prun (ε := Nat) natCfg
        [PEvent.render true none, PEvent.notify JVal.jnull]).1 =
      JVal.val 5 ∧
    pread (prun (ε := Nat) natCfg
        [PEvent.render true none, PEvent.notify JVal.jnull]).1 ≠
      JVal.jnull := by
  constructor
  · rfl
  · decide

/-- C1 (amended): for every notification delivering a concrete non-null
value v, the hook returns exactly v on the next read, overriding any
configured fallback; a notification delivering null stores null verbatim,
but on the next read that null is subject to the fallback substitution: the
hook returns the configured fallback when one is defined and null
otherwise. -/
theorem stateHook_delivered_value_read :
    ∀ (α : Type) (s : PInst α) (id : Nat), s.sub = some id →
      (∀ a : α, pread (pnotify s (JVal.val a)) = JVal.val a) ∧
      pread (pnotify s JVal.jnull) =
        hookReturn JVal.jnull (normIvc s.ivc) := by
  intro α s id hs
  constructor
  · intro a
    simp [pread, pnotify, hs, stateHookCallback, JVal.isUndefined,
      hookReturn, JVal.isNil]
  · simp [pread, pnotify, hs, stateHookCallback, JVal.isUndefined]

/-- C1 witness: on a concrete live instance with fallback 5, a delivered 9
reads back as 9, and a delivered null reads back as the fallback
substitution applied to null. -/
theorem stateHook_delivered_value_read_witness :
    pread (pnotify pinstLive (JVal.val 9)) = JVal.val 9 ∧
    pread (pnotify pinstLive JVal.jnull) =
      hookReturn JVal.jnull (normIvc pinstLive.ivc) := by
  exact ⟨(stateHook_delivered_value_read Nat pinstLive 0 rfl).1 9,
    (stateHook_delivered_value_read Nat pinstLive 0 rfl).2⟩

/-- Renders of an action-bound instance (no notification, no unmount). -/
def isRenderEvent {α : Type} : PEvent α → Bool
  | .render _ _ => true
  | _ => false

theorem prunFrom_no_notify {α ε : Type} (cfg : StateHookOptions α ε)
    (a : α) :
    ∀ (es : List (PEvent α)) (s : PInst α),
      (∀ e ∈ es, isRenderEvent e = true) →
      s.ivc = JVal.val a →
      (s.cell = none ∨ s.cell = some (JVal.val a)) →
      (prunFrom (ε := ε) cfg s es).1.ivc = JVal.val a ∧
        ((prunFrom (ε := ε) cfg s es).1.cell = none ∨
         (prunFrom (ε := ε) cfg s es).1.cell = some (JVal.val a))
  | [], s, _, hivc, hcell => by
    simp [prunFrom]
    exact ⟨hivc, hcell⟩
  | e :: es, s, hes, hivc, hcell => by
    cases e with
    | notify v => simp [isRenderEvent] at hes
    | unmount => simp [isRenderEvent] at hes
    | render b arg =>
      have hivc1 : (pstep (ε := ε) cfg s (PEvent.render b arg)).1.ivc =
          JVal.val a := by
        by_cases hd : s.prevDeps = some (b, actionArr arg) <;>
          simp [pstep, prender, hd, hivc, normIvc, JVal.isUndefined]
      have hcell1 : (pstep (ε := ε) cfg s (PEvent.render b arg)).1.cell =
          some (JVal.val a) := by
        by_cases hd : s.prevDeps = some (b, actionArr arg) <;>
          rcases hcell with hc | hc <;>
            simp [pstep, prender, hd, hc, hivc, normIvc, JVal.isUndefined]
      have h2 := prunFrom_no_notify cfg a es
        (pstep cfg s (PEvent.render b arg)).1
        (fun x hx => hes x (by simp [hx])) hivc1 (Or.inr hcell1)
      simpa [prunFrom] using h2

/-- C2: the fallback-value read contract. (a) Whenever the state cell holds
a nil value and the fallback cell holds a defined (non-nil) value, the read
returns the fallback — on every read, not only the first render. (b) With a
defined initialValue and no notification yet delivered, the hook returns
initialValue across any number of renders. (c) A late undefined
notification makes the read return the fallback substitution again (the
fallback when defined, else null), regardless of any real value previously
stored in the cell. -/
theorem stateHook_fallback_read :
    (∀ (α : Type) (st ivc : JVal α), st.isNil = true → ivc.isNil = false →
       hookReturn st ivc = ivc) ∧
    (∀ (α ε : Type) (cfg : StateHookOptions α ε) (a : α)
       (es : List (PEvent α)),
       cfg.initialValue = JVal.val a →
       (∀ e ∈ es, isRenderEvent e = true) →
       pread (prun (ε := ε) cfg es).1 = JVal.val a) ∧
    (∀ (α : Type) (s : PInst α) (id : Nat), s.sub = some id →
       pread (pnotify s JVal.undef) =
         hookReturn JVal.jnull (normIvc s.ivc)) := by
  refine ⟨?_, ?_, ?_⟩
  · intro α st ivc hst hivc
    simp [hookReturn, hst, hivc]
  · intro α ε cfg a es hinit hes
    have h := prunFrom_no_notify (ε := ε) cfg a es (PInst.start cfg) hes
      (by simp [PInst.start, hinit]) (Or.inl rfl)
    obtain ⟨hivc, hcell⟩ := h
    rcases hcell with hc | hc <;>
      simp [prun, pread, hivc, hc, normIvc, JVal.isUndefined, hookReturn,
        JVal.isNil]
  · intro α s id hs
    simp [pread, pnotify, hs, stateHookCallback, JVal.isUndefined]

/-- C2 witness: concrete reads — a null cell with defined fallback reads as
the fallback; a run of two renders with initialValue 5 and no notification
reads 5; a late undefined notification on a concrete instance holding 7
reads as the fallback substitution. -/
theorem stateHook_fallback_read_witness :
    hookReturn JVal.jnull (JVal.val 3) = JVal.val 3 ∧
    pread (prun (ε := Nat) natCfg
        [PEvent.render true none, PEvent.render false none]).1 =
      JVal.val 5 ∧
    pread (pnotify pinstLive JVal.undef) =
      hookReturn JVal.jnull (normIvc pinstLive.ivc) := by
  refine ⟨?_, ?_, ?_⟩
  · exact stateHook_fallback_read.1 Nat JVal.jnull (JVal.val 3) rfl rfl
  · exact stateHook_fallback_read.2.1 Nat Nat natCfg 5
      [PEvent.render true none, PEvent.render false none] rfl (by decide)
  · exact stateHook_fallback_read.2.2 Nat pinstLive 0 rfl

/-- C3 counterexample: the claimed "if and only if" fails. A delivered null
is not the undefined sentinel, yet the callback stores exactly the same "no
value" marker (null) for it as for an undefined delivery, and on a concrete
live instance with a fallback the two deliveries produce identical
subsequent reads. -/
theorem callback_marker_iff_cex :
    stateHookCallback (JVal.jnull : JVal Nat) =
      stateHookCallback (JVal.undef : JVal Nat) ∧
    (JVal.jnull : JVal Nat) ≠ JVal.undef ∧
    pread (pnotify pinstLive JVal.jnull) =
      pread (pnotify pinstLive JVal.undef) := by
  decide

/-- C3 (amended): the subscription callback sets the local state to the "no
value" marker (null) IF the delivered value is the undefined sentinel, and
stores every other delivered value verbatim — but since the marker is null
itself, a delivered null also leaves the state at the marker, so the "only
if" direction does not hold. After an undefined notification reads return
the fallback (when configured) or the marker, never the previously observed
value. The normalization is identical in all four hook variants. -/
theorem callback_normalization :
    (∀ α : Type, stateHookCallback (JVal.undef : JVal α) = JVal.jnull) ∧
    (∀ (α : Type) (v : JVal α), v.isUndefined = false →
       stateHookCallback v = v) ∧
    (∀ (α : Type) (v : JVal α),
       keyedStateHookCallback v = stateHookCallback v ∧
       wrappedStateHookCallback v = stateHookCallback v ∧
       plainStateHookCallback v = stateHookCallback v) ∧
    (∀ (α : Type) (s : KInst α) (p : String) (id : Nat),
       s.sub = some (p, id) →
       kread (knotify s JVal.undef) = hookReturn JVal.jnull s.ivc) := by
  refine ⟨fun α => rfl, ?_, fun α v => ⟨rfl, rfl, rfl⟩, ?_⟩
  · intro α v hv
    simp [stateHookCallback, hv]
  · intro α s p id hs
    simp [kread, knotify, hs, keyedStateHookCallback, JVal.isUndefined]

/-- C3 witness: concrete instances of the amended normalization facts. -/
theorem callback_normalization_witness :
    stateHookCallback (JVal.val 7 : JVal Nat) = JVal.val 7 ∧
    kread (knotify kinstLive JVal.undef) =
      hookReturn JVal.jnull kinstLive.ivc := by
  exact ⟨callback_normalization.2.1 Nat (JVal.val 7) rfl,
    callback_normalization.2.2.2 Nat kinstLive "product.k1" 0 rfl⟩

end ReactTates
